import Mathlib

/-!
Verification of the fork-safe synchronization and background-monitoring core
of `clearml/utilities/process/mp.py`, via a shallow embedding.

Machine-level Python values that matter to the claims are modelled as
follows: byte strings are `List Nat`, process ids are `Nat`, the Python
truthiness of `None`/ints is made explicit, and the external `psutil`
library is an environment parameter.  Functions translated from the source
keep the source's names where Lean allows it.
-/

set_option autoImplicit false

/-! ### A model of `pickle` for plain data structures

The queue serializes objects with `pickle.dumps` and deserializes with
`pickle.loads` (external standard library).  We model the "plain data
structures" fragment: `None`, booleans, arbitrary-precision ints, strings
and pairs, with a concrete prefix-free encoder and a fuel-indexed decoder.
-/

namespace Pickle

/-- Serialized byte strings (one `Nat` per cell; pickle bytes are opaque to
the queue, so no upper bound on a cell is needed). -/
abbrev Bytes := List Nat

/-- Plain data values: the picklable fragment the spec calls
"plain data structures". -/
inductive PData where
  | pnone
  | pbool (b : Bool)
  | pint (i : Int)
  | pstr (s : List Nat)
  | ppair (a b : PData)
deriving DecidableEq, Repr

/-- Model of `pickle.dumps` on plain data: a tagged prefix code. -/
def dumps : PData → Bytes
  | .pnone => [0]
  | .pbool b => [1, if b then 1 else 0]
  | .pint i => [2, if i < 0 then 1 else 0, i.natAbs]
  | .pstr s => 3 :: s.length :: s
  | .ppair a b => 4 :: (dumps a ++ dumps b)

/-- Constructor depth, used as decoding fuel. -/
def depth : PData → Nat
  | .ppair a b => 1 + max (depth a) (depth b)
  | _ => 1

/-- Fuel-indexed decoder: reads one value off the front of the byte string
and returns it with the remaining bytes. -/
def loadsAux : Nat → Bytes → Option (PData × Bytes)
  | 0, _ => none
  | _ + 1, [] => none
  | fuel + 1, t :: rest =>
    if t = 0 then some (.pnone, rest)
    else if t = 1 then
      match rest with
      | [] => none
      | b :: r => some (.pbool (decide (b ≠ 0)), r)
    else if t = 2 then
      match rest with
      | sg :: n :: r => some (.pint (if sg = 1 then -(n : Int) else (n : Int)), r)
      | _ => none
    else if t = 3 then
      match rest with
      | [] => none
      | n :: r => if n ≤ r.length then some (.pstr (r.take n), r.drop n) else none
    else if t = 4 then
      match loadsAux fuel rest with
      | none => none
      | some (a, r1) =>
        match loadsAux fuel r1 with
        | none => none
        | some (b, r2) => some (.ppair a b, r2)
    else none

/-- Model of `pickle.loads`: decode a whole byte string. -/
def loads (bs : Bytes) : Option PData :=
  match loadsAux (bs.length + 1) bs with
  | some (d, []) => some d
  | _ => none

end Pickle

/-! ### The `SafeQueue` pending-write ledger and write pipeline

State of one `SafeQueue` instance together with the two in-process relay
stages (the `ThreadCalls` worker queue and the reader thread's internal
queue), restricted to one process (the claims' scenarios involve no fork).
-/

namespace SafeQueue

/-- Source: the loop at the end of `SafeQueue._q_put` (and the `except`
branch of `SafeQueue.put`):

`p = None; while p != pid and self._q_size: p = self._q_size.pop()`

pops from the tail of the ledger until an entry equal to `pid` has been
popped or the ledger is exhausted.  Implemented on the reversed list. -/
def popLoopRev (pid : Nat) : List Nat → List Nat
  | [] => []
  | p :: rest => if p = pid then rest else popLoopRev pid rest

/-- The ledger after the pop loop of `SafeQueue._q_put` runs. -/
def popUntilPid (pid : Nat) (l : List Nat) : List Nat :=
  (popLoopRev pid l.reverse).reverse

/-- Per-process pending count, source `SafeQueue._get_q_size_len`:
`len([p for p in self._q_size if p == pid])`. -/
def get_q_size_len (pid : Nat) (l : List Nat) : Nat :=
  (l.filter (fun p => p = pid)).length

/-- State of a `SafeQueue` in one process: the pending-write ledger
`_q_size`, the `ThreadCalls` worker queue holding dispatched
`_q_put` calls, the OS-level `SimpleQueue` `_q`, and the reader thread's
internal queue `_internal_q`.  Queues hold serialized byte strings. -/
structure SQState where
  qSize : List Nat
  poolQueue : List Pickle.Bytes
  osQueue : List Pickle.Bytes
  internalQ : List Pickle.Bytes
deriving DecidableEq, Repr

/-- A freshly constructed `SafeQueue` (source `SafeQueue.__init__`). -/
def initState : SQState := ⟨[], [], [], []⟩

/-- Source `SafeQueue._q_put(obj, allow_raise)`: the low-level write.
`fails` says whether `self._q.put(obj)` raises.  Returns the new state and
whether the call re-raises to its caller.  On failure the ledger is
cleared (`self._q_size.clear()`); on success the pop loop removes entries
from the tail until one of the current pid is popped. -/
def qPut (pid : Nat) (fails : Bool) (allowRaise : Bool) (obj : Pickle.Bytes)
    (s : SQState) : SQState × Bool :=
  if fails then ({ s with qSize := [] }, allowRaise)
  else ({ s with osQueue := s.osQueue ++ [obj],
                 qSize := popUntilPid pid s.qSize }, false)

/-- Failure modes of one `SafeQueue.put` call: whether the process is in
the at-exit state (`BackgroundMonitor.get_at_exit_state()`), whether
`pickle.dumps` raises, whether `ThreadCalls.apply_async` raises, and
whether the synchronous `self._q.put` raises on the at-exit path. -/
structure PutEnv where
  atExit : Bool
  serializeFails : Bool
  dispatchFails : Bool
  qPutFails : Bool
deriving DecidableEq, Repr

/-- Source `SafeQueue.put(obj)`: append the pid to the ledger, serialize,
then either write synchronously (at-exit) or dispatch `_q_put` to the
background pool; any exception is caught and rolled back with the same
tail pop loop.  Returns the new state and whether `put` raises to its
caller (the bare `except:` makes the second component always `false`). -/
def put (pid : Nat) (obj : Pickle.PData) (env : PutEnv) (s : SQState) :
    SQState × Bool :=
  let s1 := { s with qSize := s.qSize ++ [pid] }
  if env.serializeFails then
    ({ s1 with qSize := popUntilPid pid s1.qSize }, false)
  else
    let bytes := Pickle.dumps obj
    if env.atExit then
      let r := qPut pid env.qPutFails true bytes s1
      if r.2 then ({ r.1 with qSize := popUntilPid pid r.1.qSize }, false)
      else (r.1, false)
    else if env.dispatchFails then
      ({ s1 with qSize := popUntilPid pid s1.qSize }, false)
    else
      ({ s1 with poolQueue := s1.poolQueue ++ [bytes] }, false)

/-- One iteration of the `ThreadCalls._worker` loop: pop the oldest
dispatched request and run `self._q_put(obj, False)`. -/
def workerStep (pid : Nat) (s : SQState) : SQState :=
  match s.poolQueue with
  | [] => s
  | b :: rest => (qPut pid false false b { s with poolQueue := rest }).1

/-- Run the worker on a list of dispatched requests, oldest first. -/
def drainPoolGo (pid : Nat) : List Pickle.Bytes → SQState → SQState
  | [], s => s
  | b :: rest, s => drainPoolGo pid rest (qPut pid false false b s).1

/-- The single `ThreadCalls` worker thread processing every dispatched
`_q_put` request in FIFO order. -/
def drainPool (pid : Nat) (s : SQState) : SQState :=
  drainPoolGo pid s.poolQueue { s with poolQueue := [] }

/-- Relay a list of byte strings into the internal queue, oldest first
(the body of `SafeQueue._reader_daemon`: `obj = self._q.get()` then
`self._internal_q.put(obj)`). -/
def drainReaderGo : List Pickle.Bytes → SQState → SQState
  | [], s => s
  | b :: rest, s => drainReaderGo rest { s with osQueue := rest,
                                                internalQ := s.internalQ ++ [b] }

/-- The reader thread of `SafeQueue._reader_daemon` pulling everything
currently in the OS queue into the internal queue. -/
def drainReader (s : SQState) : SQState :=
  drainReaderGo s.osQueue s

/-- Source `SafeQueue._get_internal_queue` (the body of `get`): pop the
internal queue and `pickle.loads` the result.  `none` models a `get` that
would block (empty queue) or a deserialization failure. -/
def getInternal (s : SQState) : Option (Pickle.PData × SQState) :=
  match s.internalQ with
  | [] => none
  | b :: rest =>
    match Pickle.loads b with
    | none => none
    | some d => some (d, { s with internalQ := rest })

/-- Perform `n` consecutive `get` calls. -/
def getAll : Nat → SQState → Option (List Pickle.PData × SQState)
  | 0, s => some ([], s)
  | n + 1, s =>
    match getInternal s with
    | none => none
    | some (d, s1) =>
      match getAll n s1 with
      | none => none
      | some (ds, s2) => some (d :: ds, s2)

/-- Perform a sequence of `put` calls, all from the same process, with no
failures and not at exit (the claims' normal-operation scenario). -/
def putAll (pid : Nat) (objs : List Pickle.PData) (s : SQState) : SQState :=
  objs.foldl (fun acc o => (put pid o ⟨false, false, false, false⟩ acc).1) s

end SafeQueue


/-! ### BackgroundMonitor class-level state, the psutil environment, and
`SafeEvent` -/

/-- Python truthiness of an optional integer (`None` and `0` are falsy);
used for `cls._main_process` checks such as `bool(cls._main_process)`. -/
def pyTruthy : Option Nat -> Bool
  | none => false
  | some n => n != 0

namespace BackgroundMonitor

/-- The class-level state of `BackgroundMonitor` relevant to the claims:
`_main_process` (the forked subprocess pid, or `None`),
`_main_process_task_id`, and `_parent_pid`. -/
structure GState where
  mainProcess : Option Nat
  mainProcessTaskId : Option Nat
  parentPid : Option Nat
deriving DecidableEq, Repr

/-- Outcome of a `psutil.Process(pid)` lookup: a process object with its
`is_running()` and zombie status, a `psutil.Error`, or any other
exception. -/
inductive ProcResult where
  | ok (running : Bool) (zombie : Bool)
  | errPsutil
  | errOther
deriving DecidableEq, Repr

/-- The external `psutil` world: process lookup by pid (`none` models
`psutil.Process(None)`), and the recursive children of a process as
`(pid, is_running, is_zombie)` triples. -/
structure PsEnv where
  proc : Option Nat -> ProcResult
  children : Option Nat -> List (Nat × Bool × Bool)

/-- Source `BackgroundMonitor.is_subprocess_enabled`:
`bool(cls._main_process) and (not task or task.id == cls._main_process_task_id)`. -/
def is_subprocess_enabled (gs : GState) (task : Option Nat) : Bool :=
  pyTruthy gs.mainProcess &&
    (match task with
     | none => true
     | some t => gs.mainProcessTaskId == some t)

/-- The `except Exception:` branch of `BackgroundMonitor.is_subprocess_alive`:
re-check `current_pid`, look up the recorded parent (returning Python
`None` on `psutil.Error`, propagating any other exception), then scan the
parent's recursive children for the subprocess pid. -/
def is_subprocess_alive_fallback (gs : GState) (env : PsEnv) :
    Except Unit (Option Bool) :=
  if !(pyTruthy gs.mainProcess) then .ok (some false)
  else
    match env.proc gs.parentPid with
    | .errPsutil => .ok none
    | .errOther => .error ()
    | .ok _ _ =>
      match (env.children gs.parentPid).find?
          (fun c => some c.1 == gs.mainProcess) with
      | some c => .ok (some (c.2.1 && !c.2.2))
      | none => .ok (some false)

/-- Source `BackgroundMonitor.is_subprocess_alive`.  The result is
`Except` over the propagating exception (the second `psutil.Process` call
is guarded only by `except psutil.Error`), carrying the Python return
value `True`/`False`/`None` as `Option Bool`. -/
def is_subprocess_alive (gs : GState) (env : PsEnv) (task : Option Nat) :
    Except Unit (Option Bool) :=
  if !(pyTruthy gs.mainProcess) ||
      (match task with
       | none => false
       | some t => gs.mainProcessTaskId != some t) then
    .ok (some false)
  else
    match env.proc gs.mainProcess with
    | .ok r z => .ok (some (r && !z))
    | _ => is_subprocess_alive_fallback gs env

/-- True exactly when `is_subprocess_alive` returns (without raising) the
Python value `True`; this is the truthiness of the call result used by
`or`/`and` at the call sites. -/
def aliveIsTrue (gs : GState) (env : PsEnv) : Bool :=
  match is_subprocess_alive gs env none with
  | .ok (some true) => true
  | _ => false

/-- The value of a `BackgroundMonitor._thread` field: Python `None`,
`True`, `False`, or an actual `Thread` object (with its liveness). -/
inductive PyThread where
  | none
  | isTrue
  | isFalse
  | thr (alive : Bool)
deriving DecidableEq, Repr

/-- Python truthiness of a `_thread` field value (a `Thread` object is
always truthy, whether or not it is alive). -/
def threadTruthy : PyThread → Bool
  | .none => false
  | .isFalse => false
  | .isTrue => true
  | .thr _ => true

/-- Per-instance state of a `BackgroundMonitor`: an identity used for
registry membership (`self not in instances` / `instances.remove(self)`),
the owning task id, `_subprocess` (`None`/`False`/`True`), `_thread`,
`_thread_pid`, and the three events' signaled states. -/
structure MState where
  ident : Nat
  taskId : Nat
  subprocess : Option Bool
  thread : PyThread
  threadPid : Option Nat
  eventSet : Bool
  doneEvSet : Bool
  startEvSet : Bool
deriving DecidableEq, Repr

/-- Source `BackgroundMonitor.is_subprocess_mode`:
`self._subprocess is not False and bool(self._main_process) and
self._task_id == self._main_process_task_id`. -/
def is_subprocess_mode (m : MState) (gs : GState) : Bool :=
  (m.subprocess != some false) && pyTruthy gs.mainProcess &&
    (some m.taskId == gs.mainProcessTaskId)

/-- Source `BackgroundMonitor._is_subprocess_mode_and_not_parent_process`:
`self.is_subprocess_mode() and self._parent_pid != os.getpid()`. -/
def is_subprocess_mode_and_not_parent_process (m : MState) (gs : GState)
    (pid : Nat) : Bool :=
  is_subprocess_mode m gs && (gs.parentPid != some pid)

/-- Result of one `BackgroundMonitor.stop` call: whether `_event.set()`
was invoked, the new instance state, the new per-task registry, and
whether the call raised (possible only through `is_subprocess_alive`). -/
structure StopResult where
  signaled : Bool
  monitor : MState
  registry : List Nat
  raised : Bool
deriving DecidableEq, Repr

/-- The guard of the `self._event.set()` call inside `stop`, with Python
short-circuit evaluation:
`not self._is_subprocess_mode_and_not_parent_process() and
(not self.is_subprocess_mode() or self.is_subprocess_alive())`. -/
def stopGuard (m : MState) (gs : GState) (env : PsEnv) (pid : Nat) :
    Except Unit Bool :=
  if is_subprocess_mode_and_not_parent_process m gs pid then .ok false
  else if !(is_subprocess_mode m gs) then .ok true
  else
    match is_subprocess_alive gs env none with
    | .error e => .error e
    | .ok v => .ok (decide (v = some true))

/-- Source `BackgroundMonitor.stop`: return early if `_thread` is falsy;
signal the stop event when the guard holds; if `_thread` is a `Thread`,
join it (exceptions swallowed), remove the instance from the per-task
registry (`ValueError` swallowed), and set `_thread = False`. -/
def stop (m : MState) (gs : GState) (env : PsEnv) (pid : Nat)
    (reg : List Nat) : StopResult :=
  if !(threadTruthy m.thread) then ⟨false, m, reg, false⟩
  else
    match stopGuard m gs env pid with
    | .error _ => ⟨false, m, reg, true⟩
    | .ok c =>
      let m1 := if c then { m with eventSet := true } else m
      match m1.thread with
      | .thr _ => ⟨c, { m1 with thread := .isFalse }, reg.erase m.ident, false⟩
      | _ => ⟨c, m1, reg, false⟩

/-- Source `BackgroundMonitor.start`: set `_thread = True` if falsy, clear
the stop and done events, then either spawn the daemon thread (`_start`,
when `_subprocess is False`) or append the instance to the per-task
registry unless already present. -/
def start (m : MState) (pid : Nat) (reg : List Nat) : MState × List Nat :=
  let m1 := { m with
    thread := if threadTruthy m.thread then m.thread else .isTrue,
    eventSet := false, doneEvSet := false }
  if m1.subprocess = some false then
    match m1.thread with
    | .thr _ =>
      if m1.threadPid == some pid then (m1, reg)
      else ({ m1 with thread := .thr true, threadPid := some pid }, reg)
    | _ => ({ m1 with thread := .thr true, threadPid := some pid }, reg)
  else
    if m1.ident ∈ reg then (m1, reg) else (m1, reg ++ [m1.ident])

/-- Repeated `start` calls on the same instance. -/
def startN (pid : Nat) : Nat → MState → List Nat → MState × List Nat
  | 0, m, reg => (m, reg)
  | n + 1, m, reg => startN pid n (start m pid reg).1 (start m pid reg).2

end BackgroundMonitor

/-- Source `SafeEvent.set`: delegate to the cross-process event only when
subprocess coordination is not enabled or the counterpart subprocess is
confirmed alive; `ev` is the underlying event state, the second component
records a propagating exception from `is_subprocess_alive`. -/
def SafeEvent.set (gs : BackgroundMonitor.GState)
    (env : BackgroundMonitor.PsEnv) (ev : Bool) : Bool × Bool :=
  if !(BackgroundMonitor.is_subprocess_enabled gs none) then (true, false)
  else
    match BackgroundMonitor.is_subprocess_alive gs env none with
    | .error _ => (ev, true)
    | .ok v => if v = some true then (true, false) else (ev, false)

/-! ### `ForkQueue` lazy construction of the inner thread queue -/

namespace ForkQueue

/-- State of a `ForkQueue` (a `_ForkSafeThreadSyncObject` whose functor
builds a `queue.Queue`): the inner queue's contents when built, and the
pid recorded at construction. -/
structure FQState where
  sync : Option (List Nat)
  instancePid : Option Nat
deriving DecidableEq, Repr

/-- Source `_ForkSafeThreadSyncObject._create`: rebuild the inner object
(a fresh empty queue) whenever the recorded pid differs from the current
one or the object was never built. -/
def create (pid : Nat) (s : FQState) : FQState :=
  if s.instancePid != some pid || s.sync.isNone then
    ⟨some [], some pid⟩
  else s

/-- Source `ForkQueue.empty`: `True` without touching `_create` when the
inner queue was never built; otherwise ensure the queue belongs to this
process and ask it. -/
def empty (pid : Nat) (s : FQState) : Bool × FQState :=
  match s.sync with
  | none => (true, s)
  | some _ =>
    let s1 := create pid s
    ((s1.sync.getD []).isEmpty, s1)

/-- Source `ForkQueue.full`: `False` without touching `_create` when the
inner queue was never built; an unbounded `queue.Queue` is never full. -/
def full (pid : Nat) (s : FQState) : Bool × FQState :=
  match s.sync with
  | none => (false, s)
  | some _ =>
    let s1 := create pid s
    (false, s1)

/-- Source `ForkQueue.close`: return without touching `_create` when the
inner queue was never built; otherwise delegate to the inner queue's
`close` (which `queue.Queue` does not define, so the call raises). -/
def close (pid : Nat) (s : FQState) : Except Unit FQState :=
  match s.sync with
  | none => .ok s
  | some _ => .error ()

end ForkQueue

/-! ### The length-prefixed pipe write override -/

namespace SafeQueue

/-- Source `struct.pack("!i", n)` for `0 <= n < 2^31`: the 4-byte
big-endian encoding of `n`. -/
def structPackBangI (n : Nat) : List Nat :=
  [n / 2 ^ 24 % 256, n / 2 ^ 16 % 256, n / 2 ^ 8 % 256, n % 256]

/-- Source `SafeQueue._pipe_override_send_bytes`: the list of payloads
passed to the underlying `self._send`, in order.  The function performs
exactly one send of the concatenated header and payload. -/
def pipe_override_send_bytes (buf : List Nat) : List (List Nat) :=
  [structPackBangI buf.length ++ buf]

/-- Big-endian value of a byte string (specification-side decoder for the
length header). -/
def beValue (bs : List Nat) : Nat :=
  bs.foldl (fun acc b => acc * 256 + b) 0

end SafeQueue

/-! ### Concrete states used by counterexamples and witnesses -/

/-- A monitor in subprocess mode observed from the parent process. -/
def stopMonitorC6 : BackgroundMonitor.MState :=
  ⟨5, 7, some true, .thr true, some 42, false, false, false⟩

/-- Class state with a recorded subprocess for task 7, parent pid 42. -/
def stopGStateC6 : BackgroundMonitor.GState :=
  ⟨some 1000, some 7, some 42⟩

/-- A psutil world in which every process lookup finds a dead process. -/
def stopEnvC6 : BackgroundMonitor.PsEnv :=
  ⟨fun _ => .ok false false, fun _ => []⟩

/-- A thread-mode monitor with a live daemon thread. -/
def stopMonitorThreadMode : BackgroundMonitor.MState :=
  ⟨6, 7, some false, .thr true, some 42, false, false, false⟩

/-- Class state with no subprocess recorded. -/
def emptyGState : BackgroundMonitor.GState := ⟨none, none, none⟩

/-- Class state for C8: subprocess pid 1000 recorded, parent pid 1. -/
def aliveGStateC8 : BackgroundMonitor.GState := ⟨some 1000, some 7, some 1⟩

/-- A psutil world for C8 in which looking up the subprocess pid raises
and looking up the parent pid raises `psutil.Error`. -/
def aliveEnvC8 : BackgroundMonitor.PsEnv :=
  ⟨fun o => if o == some 1000 || o == some 1 then .errPsutil else .ok true false,
   fun _ => []⟩

/-- A fresh monitor awaiting subprocess registration. -/
def pendingMonitorC10 : BackgroundMonitor.MState :=
  ⟨9, 7, none, .none, none, false, false, false⟩

/-! ### Theorems -/

theorem Pickle.depth_pos (x : PData) : 0 < depth x := by
  cases x <;> simp [depth]

theorem Pickle.loadsAux_dumps (x : PData) :
    ∀ fuel rest, depth x ≤ fuel → loadsAux fuel (dumps x ++ rest) = some (x, rest) := by
  induction x with
  | pnone =>
    intro fuel rest hf
    match fuel, hf with
    | f + 1, _ => simp [dumps, loadsAux]
  | pbool b =>
    intro fuel rest hf
    match fuel, hf with
    | f + 1, _ => cases b <;> simp [dumps, loadsAux]
  | pint i =>
    intro fuel rest hf
    match fuel, hf with
    | f + 1, _ =>
      by_cases hi : i < 0
      · simp [dumps, loadsAux, hi, abs_of_neg hi]
      · have h0 : (0 : Int) ≤ i := le_of_not_lt hi
        simp [dumps, loadsAux, hi, abs_of_nonneg h0]
  | pstr s =>
    intro fuel rest hf
    cases fuel with
    | zero => exact absurd hf (by simp [depth])
    | succ f => simp [dumps, loadsAux]
  | ppair a b iha ihb =>
    intro fuel rest hf
    have hd : 1 + max (depth a) (depth b) ≤ fuel := by
      simpa [depth] using hf
    cases fuel with
    | zero => exact absurd hd (by omega)
    | succ f =>
      have hma := le_max_left (depth a) (depth b)
      have hmb := le_max_right (depth a) (depth b)
      have ha : depth a ≤ f := by omega
      have hb : depth b ≤ f := by omega
      have h1 : loadsAux f (dumps a ++ (dumps b ++ rest)) = some (a, dumps b ++ rest) :=
        iha f (dumps b ++ rest) ha
      have h2 : loadsAux f (dumps b ++ rest) = some (b, rest) := ihb f rest hb
      simp [dumps, loadsAux, h1, h2]

theorem Pickle.depth_le_length_dumps (x : PData) : depth x ≤ (dumps x).length := by
  induction x with
  | pnone => simp [depth, dumps]
  | pbool b => simp [depth, dumps]
  | pint i => simp [depth, dumps]
  | pstr s => simp [depth, dumps]
  | ppair a b iha ihb =>
    simp only [depth, dumps, List.length_cons, List.length_append]
    have hm : max (depth a) (depth b) ≤ (dumps a).length + (dumps b).length :=
      max_le (le_trans iha (Nat.le_add_right _ _)) (le_trans ihb (Nat.le_add_left _ _))
    omega

/-- Round trip: decoding an encoded plain value recovers it exactly. -/
theorem Pickle.loads_dumps (x : PData) : loads (dumps x) = some x := by
  have h : loadsAux ((dumps x).length + 1) (dumps x ++ []) = some (x, []) :=
    loadsAux_dumps x ((dumps x).length + 1) []
      (le_trans (depth_le_length_dumps x) (Nat.le_succ _))
  simp only [List.append_nil] at h
  simp [loads, h]




theorem SafeQueue.popLoopRev_nil (pid : Nat) : popLoopRev pid [] = [] := rfl

theorem SafeQueue.popUntilPid_nil (pid : Nat) : popUntilPid pid [] = [] := rfl

/-- The rollback pop loop, run right after the same pid was appended at the
tail, removes exactly that appended entry. -/
theorem SafeQueue.popUntilPid_append_self (pid : Nat) (l : List Nat) :
    popUntilPid pid (l ++ [pid]) = l := by
  simp [popUntilPid, popLoopRev]

theorem SafeQueue.count_filter_popLoopRev (pid : Nat) (l : List Nat) (h : pid ∈ l) :
    ((popLoopRev pid l).filter (fun p => p = pid)).length =
      (l.filter (fun p => p = pid)).length - 1 := by
  induction l with
  | nil => cases h
  | cons p rest ih =>
    by_cases hp : p = pid
    · subst hp
      simp [popLoopRev, List.filter]
    · have hmem : pid ∈ rest := by
        cases h with
        | head => exact absurd rfl hp
        | tail _ h2 => exact h2
      have hdp : (decide (p = pid)) = false := by simp [hp]
      simp [popLoopRev, hp, List.filter, hdp, ih hmem]

theorem SafeQueue.popLoopRev_not_mem (pid : Nat) (l : List Nat) (h : pid ∉ l) :
    popLoopRev pid l = [] := by
  induction l with
  | nil => rfl
  | cons p rest ih =>
    have hp : p ≠ pid := fun he => h (he ▸ List.mem_cons_self _ _)
    have hmem : pid ∉ rest := fun hm => h (List.mem_cons_of_mem _ hm)
    simp [popLoopRev, hp, ih hmem]

theorem SafeQueue.filter_reverse_eq (pid : Nat) (l : List Nat) :
    (l.reverse.filter (fun p => p = pid)).length =
      (l.filter (fun p => p = pid)).length := by
  induction l with
  | nil => rfl
  | cons p rest ih =>
    by_cases hp : p = pid <;>
      simp [List.filter_append, List.filter, hp, ih]

/-- If the current pid is present in the ledger, the success pop loop of
`_q_put` decrements its count by exactly one. -/
theorem SafeQueue.get_q_size_len_popUntilPid (pid : Nat) (l : List Nat) (h : pid ∈ l) :
    get_q_size_len pid (popUntilPid pid l) = get_q_size_len pid l - 1 := by
  have hrev : pid ∈ l.reverse := List.mem_reverse.mpr h
  simp only [get_q_size_len, popUntilPid]
  rw [filter_reverse_eq, count_filter_popLoopRev pid l.reverse hrev,
    filter_reverse_eq]

/-- If the current pid is absent, the pop loop drains the whole ledger. -/
theorem SafeQueue.popUntilPid_not_mem (pid : Nat) (l : List Nat) (h : pid ∉ l) :
    popUntilPid pid l = [] := by
  have : pid ∉ l.reverse := fun hm => h (List.mem_reverse.mp hm)
  simp [popUntilPid, popLoopRev_not_mem pid l.reverse this]



theorem SafeQueue.putAll_spec (pid : Nat) (objs : List Pickle.PData) :
    ∀ s : SQState, putAll pid objs s =
      ⟨s.qSize ++ List.replicate objs.length pid,
       s.poolQueue ++ objs.map Pickle.dumps, s.osQueue, s.internalQ⟩ := by
  induction objs with
  | nil => intro s; simp [putAll]
  | cons o os ih =>
    intro s
    have step : putAll pid (o :: os) s =
        putAll pid os ⟨s.qSize ++ [pid], s.poolQueue ++ [Pickle.dumps o],
          s.osQueue, s.internalQ⟩ := by
      simp [putAll, put]
    rw [step, ih]
    simp [List.replicate_succ, List.append_assoc]

theorem SafeQueue.drainPoolGo_spec (pid : Nat) (bs : List Pickle.Bytes) :
    ∀ s : SQState,
      (drainPoolGo pid bs s).osQueue = s.osQueue ++ bs ∧
      (drainPoolGo pid bs s).internalQ = s.internalQ ∧
      (drainPoolGo pid bs s).poolQueue = s.poolQueue := by
  induction bs with
  | nil => intro s; simp [drainPoolGo]
  | cons b rest ih =>
    intro s
    have := ih (qPut pid false false b s).1
    simp [qPut] at this
    simp [drainPoolGo, qPut, this]

theorem SafeQueue.drainReaderGo_internal (bs : List Pickle.Bytes) :
    ∀ s : SQState, (drainReaderGo bs s).internalQ = s.internalQ ++ bs := by
  induction bs with
  | nil => intro s; simp [drainReaderGo]
  | cons b rest ih =>
    intro s
    rw [drainReaderGo, ih]
    simp

theorem SafeQueue.getAll_spec (objs : List Pickle.PData) :
    ∀ (s : SQState) (extra : List Pickle.Bytes),
      s.internalQ = objs.map Pickle.dumps ++ extra →
      getAll objs.length s = some (objs, { s with internalQ := extra }) := by
  induction objs with
  | nil =>
    intro s extra h
    simp only [List.map_nil, List.nil_append] at h
    cases s
    simp_all [getAll]
  | cons o os ih =>
    intro s extra h
    have hget : getInternal s =
        some (o, { s with internalQ := os.map Pickle.dumps ++ extra }) := by
      simp only [getInternal, h, List.map_cons, List.cons_append,
        Pickle.loads_dumps]
    have hrec := ih { s with internalQ := os.map Pickle.dumps ++ extra } extra rfl
    simp [getAll, hget, hrec]


/-- C1: for every sequence of `SafeQueue.put` calls followed by
`SafeQueue.get` calls performed within one process with no fork in between
(the background worker and reader threads relaying everything in order),
the objects returned by `get` are value-equal to the objects that were put
and are returned in the same FIFO order in which they were put: the
serialization round trip is lossless for plain data structures. -/
theorem SafeQueue.put_get_fifo_roundtrip (pid : Nat) (objs : List Pickle.PData) :
    (getAll objs.length
      (drainReader (drainPool pid (putAll pid objs initState)))).map Prod.fst =
      some objs := by
  have hput : putAll pid objs initState =
      ⟨List.replicate objs.length pid, objs.map Pickle.dumps, [], []⟩ := by
    rw [putAll_spec]
    simp [initState]
  obtain ⟨ho, hi, hp⟩ := drainPoolGo_spec pid (objs.map Pickle.dumps)
      (⟨List.replicate objs.length pid, [], [], []⟩ : SQState)
  have hs2 : drainPool pid (putAll pid objs initState) =
      drainPoolGo pid (objs.map Pickle.dumps)
        ⟨List.replicate objs.length pid, [], [], []⟩ := by
    rw [hput]
    simp [drainPool]
  rw [hs2]
  have h3 : (drainReader (drainPoolGo pid (objs.map Pickle.dumps)
      ⟨List.replicate objs.length pid, [], [], []⟩)).internalQ =
      objs.map Pickle.dumps ++ [] := by
    rw [drainReader, drainReaderGo_internal, hi, ho]
    simp
  rw [getAll_spec objs _ [] h3]
  simp

/-- C2: `SafeQueue.put` never raises to the caller (its bare `except:`
catches everything), and whenever serialization or the asynchronous
dispatch fails, the ledger entry that this `put` appended for the calling
process is rolled back: the calling process's pending count after the
failed put equals its count before the put. -/
theorem SafeQueue.put_no_raise_and_rollback (pid : Nat) (obj : Pickle.PData)
    (env : PutEnv) (s : SQState) :
    (put pid obj env s).2 = false ∧
    (env.serializeFails = true ∨ (env.atExit = false ∧ env.dispatchFails = true) →
      get_q_size_len pid (put pid obj env s).1.qSize =
        get_q_size_len pid s.qSize) := by
  obtain ⟨ae, sf, df, qf⟩ := env
  cases sf <;> cases ae <;> cases df <;> cases qf <;>
    simp [put, qPut, popUntilPid_append_self, popUntilPid_nil]

/-- Closed witness for C2: a put whose serialization fails leaves the
calling process's pending count unchanged. -/
theorem SafeQueue.put_no_raise_and_rollback_witness :
    get_q_size_len 1
        (put 1 .pnone ⟨false, true, false, false⟩ initState).1.qSize =
      get_q_size_len 1 initState.qSize :=
  (put_no_raise_and_rollback 1 .pnone ⟨false, true, false, false⟩ initState).2
    (Or.inl rfl)

/-- Counterexample for C3: with the ledger `[1, 2]` (one pending entry of
pid 1, then one of pid 2), a successful low-level write performed by pid 1
removes pid 2's entry as well — entries of other pids are not preserved,
contradicting the claim that exactly one entry matching the current pid is
popped and entries of other pids are not removed. -/
theorem SafeQueue.qput_removes_other_pid_entry :
    get_q_size_len 2 (⟨[1, 2], [], [], []⟩ : SQState).qSize = 1 ∧
    get_q_size_len 2 ((qPut 1 false false [] ⟨[1, 2], [], [], []⟩).1.qSize) = 0 := by
  decide

/-- C3 (amended): each put appends the calling pid to the ledger before
dispatching the write; after the underlying write succeeds, entries are
popped from the tail until one matching the current pid is popped — when
the current pid is present this removes exactly one of its entries (later
entries of other pids are discarded with it), and when it is absent the
whole ledger is drained; after an irrecoverable write failure the whole
ledger is cleared; for every pid the count of its entries is always
nonnegative. -/
theorem SafeQueue.ledger_discipline (pid : Nat) (obj : Pickle.PData)
    (bytes : Pickle.Bytes) (allowRaise : Bool) (s : SQState) :
    (put pid obj ⟨false, false, false, false⟩ s).1.qSize = s.qSize ++ [pid] ∧
    (qPut pid false allowRaise bytes s).1.qSize = popUntilPid pid s.qSize ∧
    (pid ∈ s.qSize →
      get_q_size_len pid (popUntilPid pid s.qSize) =
        get_q_size_len pid s.qSize - 1) ∧
    (pid ∉ s.qSize → popUntilPid pid s.qSize = []) ∧
    (qPut pid true allowRaise bytes s).1.qSize = [] ∧
    (∀ q : Nat, 0 ≤ get_q_size_len q s.qSize) := by
  refine ⟨by simp [put], by simp [qPut], fun h => get_q_size_len_popUntilPid pid s.qSize h,
    fun h => popUntilPid_not_mem pid s.qSize h, by simp [qPut], fun q => Nat.zero_le _⟩

/-- Closed witness for C3 (amended): on ledger `[2, 1]`, pid 1 is present
and a successful write by pid 1 drops its count from 1 to 0. -/
theorem SafeQueue.ledger_discipline_witness :
    get_q_size_len 1 (popUntilPid 1 [2, 1]) = get_q_size_len 1 [2, 1] - 1 :=
  (ledger_discipline 1 .pnone [] false ⟨[2, 1], [], [], []⟩).2.2.1 (by decide)

/-- C4: whenever the direct low-level write performed by `SafeQueue._q_put`
raises, the entire pending-write ledger is cleared, and the exception is
re-raised exactly when `allow_raise` is true (the synchronous at-exit
fallback path passes `allow_raise=True`; the asynchronous worker passes
`False` and the exception is swallowed). -/
theorem SafeQueue.qput_failure_clears_and_raises (pid : Nat)
    (allowRaise : Bool) (bytes : Pickle.Bytes) (s : SQState) :
    (qPut pid true allowRaise bytes s).1.qSize = [] ∧
    (qPut pid true allowRaise bytes s).2 = allowRaise := by
  simp [qPut]

/-- C5: `SafeEvent.set()` sets the underlying cross-process event if and
only if subprocess coordination is not enabled or the counterpart
subprocess is confirmed alive (`is_subprocess_alive()` returns `True`);
otherwise the event state is left unchanged. -/
theorem SafeEvent.set_guarded (gs : BackgroundMonitor.GState)
    (env : BackgroundMonitor.PsEnv) (ev : Bool) :
    (SafeEvent.set gs env ev).1 =
      if !(BackgroundMonitor.is_subprocess_enabled gs none) ||
          BackgroundMonitor.aliveIsTrue gs env then true else ev := by
  by_cases he : BackgroundMonitor.is_subprocess_enabled gs none
  · cases h : BackgroundMonitor.is_subprocess_alive gs env none with
    | error e => simp [SafeEvent.set, BackgroundMonitor.aliveIsTrue, he, h]
    | ok v =>
      cases v with
      | none => simp [SafeEvent.set, BackgroundMonitor.aliveIsTrue, he, h]
      | some b =>
        cases b <;> simp [SafeEvent.set, BackgroundMonitor.aliveIsTrue, he, h]
  · simp [SafeEvent.set, he]

/-- Counterexample for C6: a monitor in subprocess mode, called from the
parent process, whose counterpart subprocess is dead: the claim's
condition (not (subprocess mode and caller not parent)) holds, yet `stop`
does not signal the stop event, because of the additional
`is_subprocess_alive` conjunct in the code. -/
theorem BackgroundMonitor.stop_claim_counterexample :
    (stop stopMonitorC6 stopGStateC6 stopEnvC6 42 []).signaled = false ∧
    ¬(is_subprocess_mode stopMonitorC6 stopGStateC6 = true ∧
      stopGStateC6.parentPid ≠ some 42) := by
  refine ⟨rfl, ?_⟩
  rintro ⟨-, hne⟩
  exact hne rfl

/-- C6 (amended): `stop()` signals the stop event exactly when `_thread`
is truthy, it is not the case that the monitor is in subprocess mode with
a non-parent caller, and additionally the monitor is not in subprocess
mode or the counterpart subprocess is confirmed alive; and when the
monitor runs as a thread (and the guard evaluation did not raise), `stop`
joins it, removes the instance from the per-task registry and marks the
thread done. -/
theorem BackgroundMonitor.stop_characterization (m : MState) (gs : GState)
    (env : PsEnv) (pid : Nat) (reg : List Nat) :
    (stop m gs env pid reg).signaled =
      (threadTruthy m.thread &&
        !(is_subprocess_mode_and_not_parent_process m gs pid) &&
        (!(is_subprocess_mode m gs) || aliveIsTrue gs env)) ∧
    ((threadTruthy m.thread = true ∧ (stop m gs env pid reg).raised = false ∧
        (∃ a, m.thread = .thr a)) →
      (stop m gs env pid reg).monitor.thread = .isFalse ∧
      (stop m gs env pid reg).registry = reg.erase m.ident) := by
  constructor
  · by_cases ht : threadTruthy m.thread
    · by_cases hnp : is_subprocess_mode_and_not_parent_process m gs pid
      · cases hth : m.thread <;>
          simp_all [stop, stopGuard, threadTruthy]
      · by_cases hsm : is_subprocess_mode m gs
        · cases halive : is_subprocess_alive gs env none with
          | error e =>
            cases hth : m.thread <;>
              simp_all [stop, stopGuard, threadTruthy, aliveIsTrue]
          | ok v =>
            match v with
            | none =>
              cases hth : m.thread <;>
                simp_all [stop, stopGuard, threadTruthy, aliveIsTrue]
            | some true =>
              cases hth : m.thread <;>
                simp_all [stop, stopGuard, threadTruthy, aliveIsTrue]
            | some false =>
              cases hth : m.thread <;>
                simp_all [stop, stopGuard, threadTruthy, aliveIsTrue]
        · cases hth : m.thread <;>
            simp_all [stop, stopGuard, threadTruthy, aliveIsTrue]
    · simp [stop, ht]
  · rintro ⟨ht, hr, a, ha⟩
    cases hg : stopGuard m gs env pid with
    | error e =>
      exfalso
      rw [stop, if_neg (by simp [ht]), hg] at hr
      simp at hr
    | ok c =>
      cases c <;> simp [stop, ht, hg, ha, threadTruthy]

/-- Closed witness for C6 (amended): a thread-mode monitor with a live
thread is joined, removed from the registry, and its thread marked done. -/
theorem BackgroundMonitor.stop_characterization_witness :
    (stop stopMonitorThreadMode emptyGState stopEnvC6 42 [6]).monitor.thread =
        PyThread.isFalse ∧
    (stop stopMonitorThreadMode emptyGState stopEnvC6 42 [6]).registry =
        ([6] : List Nat).erase 6 :=
  (stop_characterization stopMonitorThreadMode emptyGState stopEnvC6 42 [6]).2
    ⟨rfl, rfl, true, rfl⟩

/-- C8: there is a reachable state in which
`BackgroundMonitor.is_subprocess_alive` returns Python `None` rather than
a boolean: a subprocess pid is recorded, the direct `psutil.Process`
lookup raises, and the lookup of the recorded parent pid raises
`psutil.Error`.  Moreover `None` is returned only on that path: every
other returning branch yields `True` or `False`. -/
theorem BackgroundMonitor.is_subprocess_alive_none_reachable :
    (is_subprocess_alive aliveGStateC8 aliveEnvC8 none = .ok none) ∧
    (∀ (gs : GState) (env : PsEnv) (task : Option Nat),
      is_subprocess_alive gs env task = .ok none →
        pyTruthy gs.mainProcess = true ∧
        (env.proc gs.mainProcess = .errPsutil ∨
          env.proc gs.mainProcess = .errOther) ∧
        env.proc gs.parentPid = .errPsutil) := by
  have fallback_none : ∀ (gs : GState) (env : PsEnv),
      is_subprocess_alive_fallback gs env = .ok none →
        pyTruthy gs.mainProcess = true ∧ env.proc gs.parentPid = .errPsutil := by
    intro gs env h
    unfold is_subprocess_alive_fallback at h
    cases hp : pyTruthy gs.mainProcess
    · rw [hp] at h
      simp at h
    · rw [hp] at h
      simp only [Bool.not_true, Bool.false_eq_true, if_false] at h
      refine ⟨rfl, ?_⟩
      cases hpar : env.proc gs.parentPid with
      | errPsutil => rfl
      | errOther => simp only [hpar] at h; simp at h
      | ok r z =>
        simp only [hpar] at h
        cases hf : (env.children gs.parentPid).find?
            (fun c => some c.1 == gs.mainProcess) with
        | none => simp only [hf] at h; simp at h
        | some c => simp only [hf] at h; simp at h
  constructor
  · rfl
  · intro gs env task h
    unfold is_subprocess_alive at h
    split at h
    · simp at h
    · cases hmain : env.proc gs.mainProcess with
      | ok r z => simp only [hmain] at h; simp at h
      | errPsutil =>
        simp only [hmain] at h
        obtain ⟨htr, hpar⟩ := fallback_none gs env h
        exact ⟨htr, Or.inl rfl, hpar⟩
      | errOther =>
        simp only [hmain] at h
        obtain ⟨htr, hpar⟩ := fallback_none gs env h
        exact ⟨htr, Or.inr rfl, hpar⟩

/-- Closed witness for C8: the characterization applied to the concrete
reachable state. -/
theorem BackgroundMonitor.is_subprocess_alive_none_witness :
    pyTruthy aliveGStateC8.mainProcess = true ∧
    (aliveEnvC8.proc aliveGStateC8.mainProcess = .errPsutil ∨
      aliveEnvC8.proc aliveGStateC8.mainProcess = .errOther) ∧
    aliveEnvC8.proc aliveGStateC8.parentPid = .errPsutil :=
  (is_subprocess_alive_none_reachable).2 aliveGStateC8 aliveEnvC8 none
    (is_subprocess_alive_none_reachable).1

theorem BackgroundMonitor.start_fields (m : MState) (pid : Nat) (reg : List Nat) :
    (start m pid reg).1.ident = m.ident ∧
    (start m pid reg).1.subprocess = m.subprocess := by
  rcases m with ⟨i, tid, sp, th, tp, e1, e2, e3⟩
  cases th
  all_goals
    simp only [start, threadTruthy]
    split_ifs <;> simp

theorem BackgroundMonitor.count_start_le (m : MState) (pid : Nat) (reg : List Nat)
    (h : reg.count m.ident ≤ 1) : ((start m pid reg).2).count m.ident ≤ 1 := by
  rcases m with ⟨i, tid, sp, th, tp, e1, e2, e3⟩
  simp only [] at h
  cases th
  all_goals
    simp only [start, threadTruthy]
    split_ifs <;> try simpa using h
  all_goals simp_all [List.count_append, List.count_eq_zero_of_not_mem]

/-- C10: repeated `start()` calls on a monitor in pending-subprocess mode
never add a duplicate registry entry: if the instance appears at most once
in its task's registry, it still appears at most once after any number of
further `start()` calls. -/
theorem BackgroundMonitor.start_no_duplicate_registration (m : MState)
    (pid : Nat) (reg : List Nat) (n : Nat) (hm : m.subprocess ≠ some false)
    (h : reg.count m.ident ≤ 1) :
    ((startN pid n m reg).2).count m.ident ≤ 1 := by
  induction n generalizing m reg with
  | zero => simpa [startN] using h
  | succ k ih =>
    rw [startN]
    obtain ⟨hi, hsp⟩ := start_fields m pid reg
    have h1 := count_start_le m pid reg h
    have := ih (start m pid reg).1 (start m pid reg).2
      (by rw [hsp]; exact hm) (by rw [hi]; exact h1)
    rwa [hi] at this

/-- Closed witness for C10: three consecutive `start()` calls on a fresh
pending-subprocess monitor leave it registered at most once. -/
theorem BackgroundMonitor.start_no_duplicate_registration_witness :
    ((startN 42 3 pendingMonitorC10 []).2).count pendingMonitorC10.ident ≤ 1 :=
  start_no_duplicate_registration pendingMonitorC10 42 [] 3
    (by decide) (by decide)

/-- C9: on a `ForkQueue` whose inner queue was never constructed,
`empty()` returns `True`, `full()` returns `False`, and `close()` returns,
none of them constructing the inner queue, changing the state, or
raising. -/
theorem ForkQueue.fresh_noop (pid : Nat) (s : FQState) (h : s.sync = none) :
    empty pid s = (true, s) ∧ full pid s = (false, s) ∧ close pid s = .ok s := by
  rcases s with ⟨sync, ip⟩
  cases h
  exact ⟨rfl, rfl, rfl⟩

/-- Closed witness for C9: the fresh `ForkQueue` state. -/
theorem ForkQueue.fresh_noop_witness :
    empty 1 ⟨none, none⟩ = (true, (⟨none, none⟩ : FQState)) ∧
    full 1 ⟨none, none⟩ = (false, (⟨none, none⟩ : FQState)) ∧
    close 1 ⟨none, none⟩ = .ok (⟨none, none⟩ : FQState) :=
  fresh_noop 1 ⟨none, none⟩ rfl

/-- C7: on non-Windows platforms the overridden write primitive transmits
exactly one frame, the concatenation of a 4-byte header and the payload,
in a single call to the underlying `_send`, and the header is the
big-endian encoding of the payload length. -/
theorem SafeQueue.pipe_send_single_frame (buf : List Nat)
    (h : buf.length < 2 ^ 31) :
    pipe_override_send_bytes buf = [structPackBangI buf.length ++ buf] ∧
    (structPackBangI buf.length).length = 4 ∧
    beValue (structPackBangI buf.length) = buf.length ∧
    (pipe_override_send_bytes buf).length = 1 := by
  refine ⟨rfl, rfl, ?_, rfl⟩
  simp only [structPackBangI, beValue, List.foldl]
  omega

/-- Closed witness for C7: the frame for a 3-byte payload. -/
theorem SafeQueue.pipe_send_single_frame_witness :
    pipe_override_send_bytes [10, 20, 30] =
      [structPackBangI ([10, 20, 30] : List Nat).length ++ [10, 20, 30]] ∧
    (structPackBangI ([10, 20, 30] : List Nat).length).length = 4 ∧
    beValue (structPackBangI ([10, 20, 30] : List Nat).length) =
      ([10, 20, 30] : List Nat).length ∧
    (pipe_override_send_bytes [10, 20, 30]).length = 1 :=
  pipe_send_single_frame [10, 20, 30] (by decide)
